import Mathlib

/-!
Verification of the one-period binomial option pricing core of the
repository (App.jsx and a second variant with identical logic).  The
numeric model uses exact rationals for the finite-arithmetic claims; a
separate extended-number type models the JavaScript semantics of NaN and
the infinities where a claim is about non-finite inputs.
-/

namespace Binomial

/-- The five market inputs (data model of the spec).  Finite values are
modelled as exact rationals. -/
structure PricingInputs where
  S0 : ℚ
  Su : ℚ
  Sd : ℚ
  K : ℚ
  rPct : ℚ
deriving DecidableEq, Repr

/-- The priced result: four terminal payoffs, two present values, and the
risk-neutral probability. -/
structure PricingResult where
  Cu : ℚ
  Cd : ℚ
  Pu : ℚ
  Pd : ℚ
  C0 : ℚ
  P0 : ℚ
  p : ℚ
deriving DecidableEq, Repr

/-- Embedding of computeOnePeriod from App.jsx lines 66-76 (identical in
the second source file, lines 81-91). -/
def computeOnePeriod (i : PricingInputs) : PricingResult :=
  let r := i.rPct / 100
  let Cu := max (i.Su - i.K) 0
  let Cd := max (i.Sd - i.K) 0
  let Pu := max (i.K - i.Su) 0
  let Pd := max (i.K - i.Sd) 0
  let p := ((1 + r) * i.S0 - i.Sd) / (i.Su - i.Sd)
  let C0 := (p * Cu + (1 - p) * Cd) / (1 + r)
  let P0 := (p * Pu + (1 - p) * Pd) / (1 + r)
  ⟨Cu, Cd, Pu, Pd, C0, P0, p⟩

/-- The error mapping built by validateInputs: one optional message per
field key, a key being present exactly when its message is `some`. -/
structure ValidationErrors where
  S0 : Option String := none
  Su : Option String := none
  Sd : Option String := none
  K : Option String := none
  rPct : Option String := none
  upDown : Option String := none
  currentPrice : Option String := none
deriving DecidableEq, Repr

/-- Object.keys(errors).length === 0, i.e. no key was ever assigned. -/
def ValidationErrors.isEmpty (e : ValidationErrors) : Bool :=
  e.S0.isNone && e.Su.isNone && e.Sd.isNone && e.K.isNone &&
  e.rPct.isNone && e.upDown.isNone && e.currentPrice.isNone

/-- Embedding of validateInputs from App.jsx lines 107-138 (identical
logic in the second source file, lines 258-278; only the message texts
differ).  Over rationals the JavaScript truthiness test `!inputs.S0` is
exactly `S0 = 0`, so each `!x || x <= 0` guard is kept as the
disjunction `x = 0 ∨ x ≤ 0`. -/
def validateInputs (i : PricingInputs) : ValidationErrors :=
  let r := i.rPct / 100
  { S0 := if i.S0 = 0 ∨ i.S0 ≤ 0 then
        some "Current asset price must be greater than 0" else none
    Su := if i.Su = 0 ∨ i.Su ≤ 0 then
        some "Up-state price must be greater than 0" else none
    Sd := if i.Sd = 0 ∨ i.Sd ≤ 0 then
        some "Down-state price must be greater than 0" else none
    K := if i.K < 0 then
        some "Strike price cannot be negative" else none
    rPct := if r ≤ -1 then
        some "Risk-free rate must be greater than -100%" else none
    upDown := if 0 < i.Su ∧ 0 < i.Sd ∧ i.Su ≤ i.Sd then
        some "Up-state price must exceed down-state price" else none
    currentPrice := if 0 < i.S0 ∧ 0 < i.Su ∧ 0 < i.Sd ∧
        ¬(i.Sd < i.S0 ∧ i.S0 < i.Su) then
        some "Current price should lie between down-state and up-state prices"
      else none }

/-- Embedding of the calc memo, App.jsx lines 149-152 (second file lines
285-288): null when any error key is present, otherwise the priced
result. -/
def calcResult (i : PricingInputs) : Option PricingResult :=
  if (validateInputs i).isEmpty then some (computeOnePeriod i) else none

/-- One chart point: the category label and the two channels, null
modelled as `none`. -/
structure TimeSeriesPoint where
  t : String
  Up : Option ℚ
  Down : Option ℚ
deriving DecidableEq, Repr

/-- Embedding of the assetData memo, App.jsx lines 154-162: empty when
calc is null, otherwise the fixed 4-point sequence. -/
def assetData (i : PricingInputs) : List TimeSeriesPoint :=
  match calcResult i with
  | none => []
  | some _ =>
    [⟨" ", none, none⟩,
     ⟨"t = 0", some i.S0, some i.S0⟩,
     ⟨"t = 1", some i.Su, some i.Sd⟩,
     ⟨"  ", none, none⟩]

/-- Embedding of the callData memo, App.jsx lines 164-172. -/
def callData (i : PricingInputs) : List TimeSeriesPoint :=
  match calcResult i with
  | none => []
  | some c =>
    [⟨" ", none, none⟩,
     ⟨"t = 0", some c.C0, some c.C0⟩,
     ⟨"t = 1", some c.Cu, some c.Cd⟩,
     ⟨"  ", none, none⟩]

/-- Embedding of the putData memo, App.jsx lines 174-182. -/
def putData (i : PricingInputs) : List TimeSeriesPoint :=
  match calcResult i with
  | none => []
  | some c =>
    [⟨" ", none, none⟩,
     ⟨"t = 0", some c.P0, some c.P0⟩,
     ⟨"t = 1", some c.Pu, some c.Pd⟩,
     ⟨"  ", none, none⟩]

/-- The default input record of both source files (useState initial
value): S0=40, Su=56, Sd=32, K=50, rPct=5. -/
def canonicalInputs : PricingInputs := ⟨40, 56, 32, 50, 5⟩

end Binomial

namespace Binomial

/-!
## Extended-number model of JavaScript semantics

The two claims about non-finite inputs need the JavaScript behaviour of
NaN and the infinities in the validator.  Only the operations the
validator uses are modelled: truthiness, the comparisons, and division
by 100 (signed zero is irrelevant here because `-0` compares and tests
exactly like `0`).
-/

/-- A JavaScript number as seen by the validator: NaN, the two
infinities, or a finite value (modelled exactly as a rational). -/
inductive JSNum where
  | nan : JSNum
  | posInf : JSNum
  | negInf : JSNum
  | num : ℚ → JSNum
deriving DecidableEq, Repr

/-- JavaScript truthiness of a number: falsy exactly for 0, -0 and NaN,
so `!x` in the source is `x.falsy`. -/
def JSNum.falsy : JSNum → Bool
  | .nan => true
  | .num q => decide (q = 0)
  | _ => false

/-- The JavaScript `<` on numbers: false whenever either side is NaN. -/
def JSNum.lt : JSNum → JSNum → Bool
  | .nan, _ => false
  | _, .nan => false
  | .negInf, .negInf => false
  | .negInf, _ => true
  | _, .negInf => false
  | .posInf, _ => false
  | _, .posInf => true
  | .num a, .num b => decide (a < b)

/-- The JavaScript `<=` on numbers: false whenever either side is NaN. -/
def JSNum.le : JSNum → JSNum → Bool
  | .nan, _ => false
  | _, .nan => false
  | .negInf, _ => true
  | _, .negInf => false
  | _, .posInf => true
  | .posInf, _ => false
  | .num a, .num b => decide (a ≤ b)

/-- The JavaScript `>` on numbers. -/
def JSNum.gt (a b : JSNum) : Bool := JSNum.lt b a

/-- JavaScript division by the literal 100, the only arithmetic the
validator performs (`const r = inputs.rPct / 100`). -/
def JSNum.div100 : JSNum → JSNum
  | .nan => .nan
  | .posInf => .posInf
  | .negInf => .negInf
  | .num q => .num (q / 100)

/-- The five market inputs under the JavaScript number model. -/
structure PricingInputsJS where
  S0 : JSNum
  Su : JSNum
  Sd : JSNum
  K : JSNum
  rPct : JSNum
deriving DecidableEq, Repr

/-- Embedding of validateInputs from App.jsx lines 107-138 under the
JavaScript number model, so that the behaviour on NaN and the infinities
is captured exactly; each condition transcribes the source operator by
operator. -/
def validateInputsJS (i : PricingInputsJS) : ValidationErrors :=
  let r := i.rPct.div100
  { S0 := if i.S0.falsy || JSNum.le i.S0 (.num 0) then
        some "Current asset price must be greater than 0" else none
    Su := if i.Su.falsy || JSNum.le i.Su (.num 0) then
        some "Up-state price must be greater than 0" else none
    Sd := if i.Sd.falsy || JSNum.le i.Sd (.num 0) then
        some "Down-state price must be greater than 0" else none
    K := if JSNum.lt i.K (.num 0) then
        some "Strike price cannot be negative" else none
    rPct := if JSNum.le r (.num (-1)) then
        some "Risk-free rate must be greater than -100%" else none
    upDown := if JSNum.gt i.Su (.num 0) && JSNum.gt i.Sd (.num 0) &&
        JSNum.le i.Su i.Sd then
        some "Up-state price must exceed down-state price" else none
    currentPrice := if JSNum.gt i.S0 (.num 0) && JSNum.gt i.Su (.num 0) &&
        JSNum.gt i.Sd (.num 0) &&
        !(JSNum.lt i.Sd i.S0 && JSNum.lt i.S0 i.Su) then
        some "Current price should lie between down-state and up-state prices"
      else none }

/-!
## Validation rules as stated in the spec (section 4.1)

Each rule is a predicate on the rational input record; the theorem for
the rule-independence claim characterises key presence by these
predicates.
-/

/-- Spec rule 1: S0 ≤ 0. -/
def ruleS0 (i : PricingInputs) : Prop := i.S0 ≤ 0

/-- Spec rule 2: Su ≤ 0. -/
def ruleSu (i : PricingInputs) : Prop := i.Su ≤ 0

/-- Spec rule 3: Sd ≤ 0. -/
def ruleSd (i : PricingInputs) : Prop := i.Sd ≤ 0

/-- Spec rule 4: K < 0. -/
def ruleK (i : PricingInputs) : Prop := i.K < 0

/-- Spec rule 5: r = rPct / 100 with r ≤ -1. -/
def ruleRPct (i : PricingInputs) : Prop := i.rPct / 100 ≤ -1

/-- Spec rule 6: the guard Su > 0 and Sd > 0 holds and Su ≤ Sd. -/
def ruleUpDown (i : PricingInputs) : Prop :=
  0 < i.Su ∧ 0 < i.Sd ∧ i.Su ≤ i.Sd

/-- Spec rule 7: the guard S0, Su, Sd > 0 holds and the current price is
not strictly between the down- and up-state prices. -/
def ruleCurrentPrice (i : PricingInputs) : Prop :=
  0 < i.S0 ∧ 0 < i.Su ∧ 0 < i.Sd ∧ ¬(i.Sd < i.S0 ∧ i.S0 < i.Su)

/-!
## Helper lemmas
-/

theorem isNone_ite (c : Prop) [Decidable c] (s : String) :
    (if c then some s else none : Option String).isNone = true ↔ ¬c := by
  by_cases h : c <;> simp [h]

theorem isSome_ite (c : Prop) [Decidable c] (s : String) :
    (if c then some s else none : Option String).isSome = true ↔ c := by
  by_cases h : c <;> simp [h]

/-- The validator leaves the mapping empty exactly when none of the seven
source conditions fires. -/
theorem isEmpty_validate_iff (i : PricingInputs) :
    (validateInputs i).isEmpty = true ↔
      ¬(i.S0 = 0 ∨ i.S0 ≤ 0) ∧ ¬(i.Su = 0 ∨ i.Su ≤ 0) ∧
      ¬(i.Sd = 0 ∨ i.Sd ≤ 0) ∧ ¬(i.K < 0) ∧ ¬(i.rPct / 100 ≤ -1) ∧
      ¬(0 < i.Su ∧ 0 < i.Sd ∧ i.Su ≤ i.Sd) ∧
      ¬(0 < i.S0 ∧ 0 < i.Su ∧ 0 < i.Sd ∧ ¬(i.Sd < i.S0 ∧ i.S0 < i.Su)) := by
  simp only [validateInputs, ValidationErrors.isEmpty, Bool.and_eq_true,
    isNone_ite, and_assoc]

/-- For a rational a, the difference of the two one-sided positive parts
recovers a itself. -/
theorem max_sub_max_neg (a : ℚ) : max a 0 - max (-a) 0 = a := by
  rcases le_total a 0 with h | h
  · rw [max_eq_right h, max_eq_left (by linarith : (0:ℚ) ≤ -a)]; ring
  · rw [max_eq_left h, max_eq_right (by linarith : -a ≤ 0)]; ring

/-- Pure algebraic core of put-call parity with the risk-neutral
probability written out. -/
theorem parity_algebra (S0 Su Sd K r Cu Cd Pu Pd : ℚ)
    (hne : Su - Sd ≠ 0) (hr : 1 + r ≠ 0)
    (h1 : Cu - Pu = Su - K) (h2 : Cd - Pd = Sd - K) :
    (((1 + r) * S0 - Sd) / (Su - Sd) * Cu +
        (1 - ((1 + r) * S0 - Sd) / (Su - Sd)) * Cd) / (1 + r) -
      (((1 + r) * S0 - Sd) / (Su - Sd) * Pu +
        (1 - ((1 + r) * S0 - Sd) / (Su - Sd)) * Pd) / (1 + r) =
      S0 - K / (1 + r) := by
  have e1 : Cu = Pu + (Su - K) := by linarith
  have e2 : Cd = Pd + (Sd - K) := by linarith
  rw [e1, e2]
  field_simp
  ring

end Binomial

namespace Binomial

/-- C1: for every input on which validate returns an empty mapping, the
results of computeOnePeriod satisfy put-call parity:
C0 - P0 = S0 - K / (1 + r) with r = rPct / 100, exactly over rational
arithmetic. -/
theorem putCallParity (i : PricingInputs)
    (h : (validateInputs i).isEmpty = true) :
    (computeOnePeriod i).C0 - (computeOnePeriod i).P0 =
      i.S0 - i.K / (1 + i.rPct / 100) := by
  rw [isEmpty_validate_iff] at h
  obtain ⟨h1, h2, h3, -, h5, h6, -⟩ := h
  push_neg at h2 h3 h5 h6
  have hSu : 0 < i.Su := h2.2
  have hSd : 0 < i.Sd := h3.2
  have hud : i.Sd < i.Su := h6 hSu hSd
  have hne : i.Su - i.Sd ≠ 0 := sub_ne_zero.mpr (ne_of_gt hud)
  have hr : (1 : ℚ) + i.rPct / 100 ≠ 0 := ne_of_gt (by linarith)
  have hc : max (i.Su - i.K) 0 - max (i.K - i.Su) 0 = i.Su - i.K := by
    rw [show i.K - i.Su = -(i.Su - i.K) by ring]
    exact max_sub_max_neg _
  have hd2 : max (i.Sd - i.K) 0 - max (i.K - i.Sd) 0 = i.Sd - i.K := by
    rw [show i.K - i.Sd = -(i.Sd - i.K) by ring]
    exact max_sub_max_neg _
  simp only [computeOnePeriod]
  exact parity_algebra i.S0 i.Su i.Sd i.K (i.rPct / 100) _ _ _ _ hne hr hc hd2

/-- Witness for C1 at the canonical input S0=40, Su=56, Sd=32, K=50,
rPct=5. -/
theorem putCallParity_witness :
    (validateInputs canonicalInputs).isEmpty = true ∧
    (computeOnePeriod canonicalInputs).C0 - (computeOnePeriod canonicalInputs).P0 =
      canonicalInputs.S0 - canonicalInputs.K / (1 + canonicalInputs.rPct / 100) := by
  have hv : (validateInputs canonicalInputs).isEmpty = true := by
    norm_num [validateInputs, ValidationErrors.isEmpty, canonicalInputs]
  exact ⟨hv, putCallParity canonicalInputs hv⟩

/-- C2 counterexample: on the canonical input the code computes
p = 5/12 ≈ 0.4167, which does not round to the claimed 0.3375 at four
decimals. -/
theorem canonical_p_not_as_claimed :
    (computeOnePeriod canonicalInputs).p = 5 / 12 ∧
    ¬|(computeOnePeriod canonicalInputs).p - 3375 / 10000| ≤ 1 / 20000 := by
  have hp : (computeOnePeriod canonicalInputs).p = 5 / 12 := by
    norm_num [computeOnePeriod, canonicalInputs]
  refine ⟨hp, ?_⟩
  rw [hp, abs_le]
  push_neg
  intro _
  norm_num

/-- C2 amended: on the canonical input the code returns Cu=6, Cd=0,
Pu=0, Pd=18, C0 = 50/21 ≈ 2.3810, P0 = 10, p = 5/12 ≈ 0.4167. -/
theorem computeOnePeriod_canonical :
    computeOnePeriod canonicalInputs = ⟨6, 0, 0, 18, 50 / 21, 10, 5 / 12⟩ := by
  norm_num [computeOnePeriod, canonicalInputs]

/-- C3: every input with Sd < S0 < Su, Su > Sd, all three prices
positive, K nonnegative and rPct > -100 passes validation with an empty
mapping. -/
theorem validate_empty_of_admissible (i : PricingInputs)
    (hds : i.Sd < i.S0) (hsu : i.S0 < i.Su) (hud : i.Sd < i.Su)
    (h0 : 0 < i.S0) (hu : 0 < i.Su) (hd : 0 < i.Sd)
    (hK : 0 ≤ i.K) (hr : -100 < i.rPct) :
    (validateInputs i).isEmpty = true := by
  rw [isEmpty_validate_iff]
  refine ⟨?_, ?_, ?_, ?_, ?_, ?_, ?_⟩ <;> push_neg
  · exact ⟨ne_of_gt h0, h0⟩
  · exact ⟨ne_of_gt hu, hu⟩
  · exact ⟨ne_of_gt hd, hd⟩
  · exact hK
  · linarith
  · intro _ _; exact hud
  · intro _ _ _; exact ⟨hds, hsu⟩

/-- Witness for C3 at the canonical input. -/
theorem validate_empty_of_admissible_witness :
    canonicalInputs.Sd < canonicalInputs.S0 ∧
    canonicalInputs.S0 < canonicalInputs.Su ∧
    (validateInputs canonicalInputs).isEmpty = true := by
  refine ⟨by norm_num [canonicalInputs], by norm_num [canonicalInputs], ?_⟩
  exact validate_empty_of_admissible canonicalInputs
    (by norm_num [canonicalInputs]) (by norm_num [canonicalInputs])
    (by norm_num [canonicalInputs]) (by norm_num [canonicalInputs])
    (by norm_num [canonicalInputs]) (by norm_num [canonicalInputs])
    (by norm_num [canonicalInputs]) (by norm_num [canonicalInputs])

/-- C4: the seven validation rules are independent and never
short-circuit: each error key is present exactly when its own rule (as
stated in section 4.1 of the spec) is violated, irrespective of the other
fields, and the validator is a total function.  Violating exactly one
rule therefore yields exactly that key, and violating two rules yields
both keys simultaneously. -/
theorem validate_keys_iff_rules (i : PricingInputs) :
    ((validateInputs i).S0.isSome = true ↔ ruleS0 i) ∧
    ((validateInputs i).Su.isSome = true ↔ ruleSu i) ∧
    ((validateInputs i).Sd.isSome = true ↔ ruleSd i) ∧
    ((validateInputs i).K.isSome = true ↔ ruleK i) ∧
    ((validateInputs i).rPct.isSome = true ↔ ruleRPct i) ∧
    ((validateInputs i).upDown.isSome = true ↔ ruleUpDown i) ∧
    ((validateInputs i).currentPrice.isSome = true ↔ ruleCurrentPrice i) := by
  simp only [validateInputs, isSome_ite, ruleS0, ruleSu, ruleSd, ruleK,
    ruleRPct, ruleUpDown, ruleCurrentPrice]
  refine ⟨?_, ?_, ?_, trivial, trivial, trivial, trivial⟩ <;>
    exact or_iff_right_of_imp le_of_eq

/-- C5: a pricing result is produced exactly when validation returns an
empty mapping, and when produced it is computeOnePeriod of the same
input (never both populated, never neither). -/
theorem calcResult_some_iff_valid (i : PricingInputs) :
    (calcResult i).isSome = (validateInputs i).isEmpty ∧
    (calcResult i = none ∨ calcResult i = some (computeOnePeriod i)) := by
  cases h : (validateInputs i).isEmpty <;> simp [calcResult, h]

/-- C6: whenever a result is produced, each of the three projected
series is the ordered 4-point sequence: blank spacer, a t=0 point with
both channels equal to the time-0 value, a t=1 point carrying the up and
down values, and a trailing blank spacer. -/
theorem series_shape (i : PricingInputs) (c : PricingResult)
    (h : calcResult i = some c) :
    assetData i =
      [⟨" ", none, none⟩, ⟨"t = 0", some i.S0, some i.S0⟩,
       ⟨"t = 1", some i.Su, some i.Sd⟩, ⟨"  ", none, none⟩] ∧
    callData i =
      [⟨" ", none, none⟩, ⟨"t = 0", some c.C0, some c.C0⟩,
       ⟨"t = 1", some c.Cu, some c.Cd⟩, ⟨"  ", none, none⟩] ∧
    putData i =
      [⟨" ", none, none⟩, ⟨"t = 0", some c.P0, some c.P0⟩,
       ⟨"t = 1", some c.Pu, some c.Pd⟩, ⟨"  ", none, none⟩] := by
  refine ⟨?_, ?_, ?_⟩ <;> simp [assetData, callData, putData, h]

/-- Witness for C6 at the canonical input: the asset series is the
concrete 4-point sequence with 40 at t=0 and 56/32 at t=1. -/
theorem series_shape_witness :
    calcResult canonicalInputs = some (computeOnePeriod canonicalInputs) ∧
    assetData canonicalInputs =
      [⟨" ", none, none⟩, ⟨"t = 0", some 40, some 40⟩,
       ⟨"t = 1", some 56, some 32⟩, ⟨"  ", none, none⟩] := by
  have h : calcResult canonicalInputs = some (computeOnePeriod canonicalInputs) := by
    norm_num [calcResult, validateInputs, ValidationErrors.isEmpty, canonicalInputs]
  refine ⟨h, ?_⟩
  rw [(series_shape canonicalInputs (computeOnePeriod canonicalInputs) h).1]
  norm_num [canonicalInputs]

/-- C8: there is an input passing validation whose risk-neutral
probability lies outside [0,1]; S0=40, Su=56, Sd=32, K=50, rPct=100
gives p = 2. -/
theorem exists_valid_p_outside_unit :
    ∃ i : PricingInputs, (validateInputs i).isEmpty = true ∧
      ((computeOnePeriod i).p < 0 ∨ 1 < (computeOnePeriod i).p) := by
  refine ⟨⟨40, 56, 32, 50, 100⟩, ?_, Or.inr ?_⟩
  · norm_num [validateInputs, ValidationErrors.isEmpty]
  · norm_num [computeOnePeriod]

/-- C10: with no precondition at all, the four terminal payoffs returned
by computeOnePeriod are nonnegative, each being a maximum with zero. -/
theorem payoffs_nonneg (i : PricingInputs) :
    0 ≤ (computeOnePeriod i).Cu ∧ 0 ≤ (computeOnePeriod i).Cd ∧
    0 ≤ (computeOnePeriod i).Pu ∧ 0 ≤ (computeOnePeriod i).Pd := by
  simp only [computeOnePeriod]
  exact ⟨le_max_right _ _, le_max_right _ _, le_max_right _ _, le_max_right _ _⟩

end Binomial

namespace Binomial

/-- C7 counterexample: with S0 = +Infinity (a non-finite value) and the
other fields canonical, the validator produces no S0 key, because in
JavaScript neither !Infinity nor Infinity <= 0 holds. -/
theorem validateJS_posInf_S0_no_key :
    (validateInputsJS ⟨.posInf, .num 56, .num 32, .num 50, .num 5⟩).S0 = none := by
  norm_num [validateInputsJS, JSNum.falsy, JSNum.le]

/-- C7 amended: the validator returns the S0 key exactly when S0 is NaN,
-Infinity, or a finite value that is at most zero; +Infinity produces no
S0 error. -/
theorem validateJS_S0_key_iff (i : PricingInputsJS) :
    (validateInputsJS i).S0.isSome = true ↔
      (i.S0 = JSNum.nan ∨ i.S0 = JSNum.negInf ∨
        ∃ q : ℚ, i.S0 = JSNum.num q ∧ q ≤ 0) := by
  cases hS : i.S0 with
  | nan => simp [validateInputsJS, JSNum.falsy, hS]
  | posInf => simp [validateInputsJS, JSNum.falsy, JSNum.le, hS]
  | negInf => simp [validateInputsJS, JSNum.falsy, JSNum.le, hS]
  | num q =>
    simp [validateInputsJS, JSNum.falsy, JSNum.le, hS]
    exact le_of_eq

/-- C9 counterexample: with K = -Infinity (a non-finite value) the
validator does produce a K error, because -Infinity < 0 holds in
JavaScript. -/
theorem validateJS_negInf_K_key :
    (validateInputsJS ⟨.num 40, .num 56, .num 32, .negInf, .num 5⟩).K.isSome = true := by
  norm_num [validateInputsJS, JSNum.lt]

/-- C9 amended: the validator returns the K key exactly when K < 0 under
the JavaScript comparison, i.e. when K is -Infinity or a negative finite
value; K = NaN and K = +Infinity produce no K error and pass validation
outright when the other fields are valid. -/
theorem validateJS_K_characterization :
    (∀ i : PricingInputsJS, ((validateInputsJS i).K.isSome = true ↔
        (i.K = JSNum.negInf ∨ ∃ q : ℚ, i.K = JSNum.num q ∧ q < 0))) ∧
    (validateInputsJS ⟨.num 40, .num 56, .num 32, .nan, .num 5⟩).isEmpty = true ∧
    (validateInputsJS ⟨.num 40, .num 56, .num 32, .posInf, .num 5⟩).isEmpty = true := by
  refine ⟨?_, ?_, ?_⟩
  · intro i
    cases hK : i.K with
    | nan => simp [validateInputsJS, JSNum.lt, hK]
    | posInf => simp [validateInputsJS, JSNum.lt, hK]
    | negInf => simp [validateInputsJS, JSNum.lt, hK]
    | num q => simp [validateInputsJS, JSNum.lt, hK]
  · norm_num [validateInputsJS, ValidationErrors.isEmpty, JSNum.falsy,
      JSNum.le, JSNum.lt, JSNum.gt, JSNum.div100]
  · norm_num [validateInputsJS, ValidationErrors.isEmpty, JSNum.falsy,
      JSNum.le, JSNum.lt, JSNum.gt, JSNum.div100]

end Binomial
